import Mathlib

/-!
# Verification of the LLM-Analysis JSON pipeline core

A shallow embedding, in Lean 4, of the idea-generation / JSON-response
reconciliation subsystem of the `LLM-Analysis` repository:

* the response normalizer (`clean_json_string` in
  `src/utils/process_prompts.py` and `src/utils/openrouter.py`),
* the schema validators (`validate_json_structure` in
  `src/utils/process_prompts.py`, `IdeaGenerator._validate_and_normalize_response`
  in `src/processors/idea_generator.py`, `validate_dependencies` in
  `src/utils/process_prompts.py`),
* the format-retry loop (`handle_json_response`), the conversational batch
  loop (`generate_ideas`), and the best-effort dependency extraction
  (`generate_dependencies`),
* the transport retry loop (`OpenRouterClient._make_request` in
  `src/utils/openrouter.py`),
* the dependency aggregation and persistence logic
  (`DependencyCollector.analyze_directory`, `_normalize_dependency_data`,
  `FileHandler.update_dependencies`).

Python values parsed from JSON are modelled by the inductive type `PyJson`;
Python dicts become association lists in insertion order (which is the
iteration order of Python dicts).  Fallible Python code (functions that may
raise) is modelled with `Except String`; the carried string is the exception
message.  External collaborators (the HTTP transport, `json.loads`, the
error-correction prompt file) are passed in as explicit parameters.
-/

set_option linter.unusedVariables false

namespace LLMAnalysis

/-- A Python value parsed from JSON (`json.loads` output): `None`, booleans,
integers (the pipeline never relies on float values), strings, lists and
dicts.  Dicts are association lists in insertion order. -/
inductive PyJson where
  | null
  | bool (b : Bool)
  | num (n : Int)
  | str (s : String)
  | arr (xs : List PyJson)
  | obj (kvs : List (String × PyJson))

/-- `isinstance(x, str)` on a parsed JSON value. -/
def PyJson.isStr : PyJson → Bool
  | .str _ => true
  | _ => false

/-- `isinstance(x, list)` on a parsed JSON value. -/
def PyJson.isArr : PyJson → Bool
  | .arr _ => true
  | _ => false

/-- `isinstance(x, dict)` on a parsed JSON value. -/
def PyJson.isObj : PyJson → Bool
  | .obj _ => true
  | _ => false

/-- Python `type(x)` rendered as a short name, used inside error messages. -/
def PyJson.typeName : PyJson → String
  | .null => "NoneType"
  | .bool _ => "bool"
  | .num _ => "int"
  | .str _ => "str"
  | .arr _ => "list"
  | .obj _ => "dict"

/-- `field in item` for a Python dict modelled as an association list. -/
def dictContains (kvs : List (String × PyJson)) (field : String) : Bool :=
  kvs.any (fun kv => kv.1 == field)

/-- `item[field]` for a Python dict (first binding wins; parsed JSON dicts
have unique keys). -/
def dictGet (kvs : List (String × PyJson)) (field : String) : PyJson :=
  match kvs.find? (fun kv => kv.1 == field) with
  | some kv => kv.2
  | none => .null

/-- A chat message `{role, content}` (`ConversationMessage` in the spec). -/
structure Message where
  role : String
  content : String

/-! ## Response normalizer: `clean_json_string`

`clean_json_string` (identical in `src/utils/process_prompts.py` lines 13-42
and `src/utils/openrouter.py` lines 119-148) does:

1. `re.sub` removing every occurrence of three backticks, an optional
   literal `json` tag, and the following whitespace run (the fence-opening
   pattern of the source);
2. `re.sub` removing every occurrence of a whitespace run followed by three
   backticks (the fence-closing pattern of the source);
3. `content.strip()`;
4. a regex search for `{` followed by anything up to a final `}`, or `[`
   followed by anything up to a final `]`; on a match return the matched
   substring, otherwise raise
   `ValueError("No valid JSON structure found in response")`.

We model strings as `List Char` internally.  `pyIsSpace` is the character
class of Python's regex whitespace class (which also covers what
`str.strip()` removes for the ASCII text handled here). -/

/-- The characters matched by the regex whitespace class. -/
def pyIsSpace (c : Char) : Bool :=
  c = ' ' || c = '\t' || c = '\n' || c = '\r' || c = '\x0b' || c = '\x0c'

/-- A backtick character. -/
def btick : Char := Char.ofNat 96

/-- The optional literal `json` tag of the fence-opening pattern: consumed
when present, otherwise the text is left as is. -/
def dropJsonTag (l : List Char) : List Char :=
  if l.take 4 = ['j', 's', 'o', 'n'] then l.drop 4 else l

theorem dropJsonTag_length_le (l : List Char) : (dropJsonTag l).length ≤ l.length := by
  unfold dropJsonTag
  split
  · simp [List.length_drop]
  · exact Nat.le_refl _

/-- First fence substitution of `clean_json_string`: scan left to right; at
each occurrence of three backticks consume them, then an optional literal
`json`, then the maximal whitespace run, and continue after the match.
The scan consumes at least one character per step, so running it with fuel
equal to the input length computes the full substitution; fuel keeps the
recursion structural so that concrete inputs evaluate in the kernel. -/
def subFenceOpenAux : Nat → List Char → List Char
  | _, [] => []
  | 0, l => l
  | fuel + 1, c :: rest =>
    if (c :: rest).take 3 = [btick, btick, btick] then
      subFenceOpenAux fuel ((dropJsonTag (rest.drop 2)).dropWhile pyIsSpace)
    else
      c :: subFenceOpenAux fuel rest

/-- The fence-opening substitution at full fuel. -/
def subFenceOpen (l : List Char) : List Char :=
  subFenceOpenAux l.length l

/-- Does the fence-closing pattern (whitespace run, then three backticks)
match starting at this position?  It does exactly when the maximal
whitespace run at the front is immediately followed by three backticks. -/
def wsFenceAt (l : List Char) : Prop :=
  (l.dropWhile pyIsSpace).take 3 = [btick, btick, btick]

instance (l : List Char) : Decidable (wsFenceAt l) := by
  unfold wsFenceAt; infer_instance

/-- Consume a fence-closing match at the front of the list. -/
def dropWsFence (l : List Char) : List Char :=
  (l.dropWhile pyIsSpace).drop 3

/-- Second fence substitution of `clean_json_string`: scan left to right,
removing each leftmost match of the fence-closing pattern and continuing
after it.  As above, fuel keeps the recursion structural. -/
def subFenceCloseAux : Nat → List Char → List Char
  | _, [] => []
  | 0, l => l
  | fuel + 1, c :: rest =>
    if wsFenceAt (c :: rest) then subFenceCloseAux fuel (dropWsFence (c :: rest))
    else c :: subFenceCloseAux fuel rest

/-- The fence-closing substitution at full fuel. -/
def subFenceClose (l : List Char) : List Char :=
  subFenceCloseAux l.length l

/-- Python `str.strip()` on a character list. -/
def pyStrip (l : List Char) : List Char :=
  ((l.dropWhile pyIsSpace).reverse.dropWhile pyIsSpace).reverse

/-- Keep the prefix of `l` up to and including the last occurrence of `c`
(this models the greedy "anything" before the final closing bracket of the
search pattern). -/
def takeToLast (l : List Char) (c : Char) : List Char :=
  l.take (l.length - l.reverse.indexOf c)

/-- The regex search of `clean_json_string`: try each start position from
the left; at a position holding `{` (resp. `[`) the alternative matches iff
a `}` (resp. `]`) occurs strictly later, and greedily extends to the last
such closer in the whole text. -/
def findJsonSpan : List Char → Option (List Char)
  | [] => none
  | c :: rest =>
    if c = '{' && rest.contains '}' then some ('{' :: takeToLast rest '}')
    else if c = '[' && rest.contains ']' then some ('[' :: takeToLast rest ']')
    else findJsonSpan rest

/-- The text that `clean_json_string` searches: the input after both fence
substitutions and `strip()`. -/
def strippedOf (content : String) : List Char :=
  pyStrip (subFenceClose (subFenceOpen content.data))

/-- `clean_json_string` (`src/utils/process_prompts.py` lines 13-42,
`src/utils/openrouter.py` lines 119-148): strip Markdown fences, strip
surrounding whitespace, then return the first greedy `{...}`/`[...]` span,
or raise `ValueError` when none exists. -/
def clean_json_string (content : String) : Except String String :=
  match findJsonSpan (strippedOf content) with
  | some span => .ok (String.mk span)
  | none => .error "No valid JSON structure found in response"

/-! ### Specification-side characterization of the span search

The spec describes the search as: take the *first* opening bracket that
begins a `{...}` or `[...]` span and extend to the *last* closing bracket of
the same kind in the text.  We state that description independently of the
recursion above and prove the two agree. -/

/-- Position `i` of `l` opens a bracketed span: it holds `{` (resp. `[`)
and a `}` (resp. `]`) occurs strictly later. -/
def opensSpanAt (l : List Char) (i : Nat) : Bool :=
  (l.getD i ' ' = '{' && (l.drop (i + 1)).contains '}') ||
  (l.getD i ' ' = '[' && (l.drop (i + 1)).contains ']')

/-- The closing bracket matching an opening bracket. -/
def closeFor (c : Char) : Char :=
  if c = '{' then '}' else ']'

/-- Index of the last occurrence of `c` in `l` (meaningful when `c ∈ l`). -/
def lastIdxOf (l : List Char) (c : Char) : Nat :=
  l.length - 1 - l.reverse.indexOf c

/-- The substring of `l` from position `i` (inclusive) to the last
occurrence of the closing bracket matching `l[i]` (inclusive). -/
def spanAt (l : List Char) (i : Nat) : List Char :=
  (l.drop i).take (lastIdxOf l (closeFor (l.getD i ' ')) + 1 - i)

/-- `l` contains a bracketed span: an opening bracket with a matching
closing bracket somewhere after it. -/
def SpanDecomp (l : List Char) : Prop :=
  (∃ pre mid post, l = pre ++ '{' :: (mid ++ '}' :: post)) ∨
  (∃ pre mid post, l = pre ++ '[' :: (mid ++ ']' :: post))

theorem lastIdxOf_cons (c a : Char) (l : List Char) (h : a ∈ l) :
    lastIdxOf (c :: l) a = lastIdxOf l a + 1 := by
  have hm : a ∈ l.reverse := List.mem_reverse.mpr h
  have hidx : l.reverse.indexOf a < l.length := by
    have := List.indexOf_lt_length.mpr hm
    simpa using this
  unfold lastIdxOf
  rw [List.reverse_cons, List.indexOf_append_of_mem hm]
  simp only [List.length_cons]
  omega

theorem cons_takeToLast (c cl : Char) (rest : List Char) (h : cl ∈ rest) :
    c :: takeToLast rest cl = (c :: rest).take (lastIdxOf (c :: rest) cl + 1) := by
  have hm : cl ∈ rest.reverse := List.mem_reverse.mpr h
  have hidx : rest.reverse.indexOf cl < rest.length := by
    have := List.indexOf_lt_length.mpr hm
    simpa using this
  have hlast : lastIdxOf (c :: rest) cl = rest.length - rest.reverse.indexOf cl := by
    unfold lastIdxOf
    rw [List.reverse_cons, List.indexOf_append_of_mem hm]
    simp only [List.length_cons]
    omega
  rw [hlast, List.take_succ_cons]
  rfl

theorem spanAt_cons_succ (c : Char) (l : List Char) (k : Nat)
    (h : closeFor (l.getD k ' ') ∈ l) :
    spanAt (c :: l) (k + 1) = spanAt l k := by
  unfold spanAt
  rw [List.getD_cons_succ, List.drop_succ_cons, lastIdxOf_cons _ _ _ h]
  congr 1
  omega

theorem contains_true_iff {α : Type} [BEq α] [LawfulBEq α] {l : List α} {a : α} :
    l.contains a = true ↔ a ∈ l := List.elem_iff

theorem opensSpanAt_cons_succ (c : Char) (l : List Char) (k : Nat) :
    opensSpanAt (c :: l) (k + 1) = opensSpanAt l k := by
  simp [opensSpanAt, List.getD_cons_succ, List.drop_succ_cons]

theorem findJsonSpan_cons_skip (c : Char) (rest : List Char)
    (n1 : ¬(c = '{' ∧ '}' ∈ rest)) (n2 : ¬(c = '[' ∧ ']' ∈ rest)) :
    findJsonSpan (c :: rest) = findJsonSpan rest := by
  have e1 : ¬((decide (c = '{') && rest.contains '}') = true) := by
    simp only [Bool.and_eq_true, decide_eq_true_eq]
    intro hh
    exact n1 ⟨hh.1, contains_true_iff.mp hh.2⟩
  have e2 : ¬((decide (c = '[') && rest.contains ']') = true) := by
    simp only [Bool.and_eq_true, decide_eq_true_eq]
    intro hh
    exact n2 ⟨hh.1, contains_true_iff.mp hh.2⟩
  conv_lhs => unfold findJsonSpan
  rw [if_neg e1, if_neg e2]

theorem findJsonSpan_cons_brace (c : Char) (rest : List Char)
    (hc : c = '{') (hm : '}' ∈ rest) :
    findJsonSpan (c :: rest) = some ('{' :: takeToLast rest '}') := by
  have e1 : (decide (c = '{') && rest.contains '}') = true := by
    simp only [Bool.and_eq_true, decide_eq_true_eq]
    exact ⟨hc, contains_true_iff.mpr hm⟩
  conv_lhs => unfold findJsonSpan
  rw [if_pos e1]

theorem findJsonSpan_cons_bracket (c : Char) (rest : List Char)
    (hc : c = '[') (hm : ']' ∈ rest) :
    findJsonSpan (c :: rest) = some ('[' :: takeToLast rest ']') := by
  have e1 : ¬((decide (c = '{') && rest.contains '}') = true) := by
    simp only [Bool.and_eq_true, decide_eq_true_eq]
    rintro ⟨h', _⟩
    rw [hc] at h'
    exact absurd h' (by decide)
  have e2 : (decide (c = '[') && rest.contains ']') = true := by
    simp only [Bool.and_eq_true, decide_eq_true_eq]
    exact ⟨hc, contains_true_iff.mpr hm⟩
  conv_lhs => unfold findJsonSpan
  rw [if_neg e1, if_pos e2]

/-- The recursive search agrees with the spec description: if position `i`
is the first position opening a span, the search returns exactly the
substring from `i` to the last matching closer. -/
theorem findJsonSpan_of_first (l : List Char) (i : Nat)
    (h : opensSpanAt l i = true) (hmin : ∀ k, k < i → opensSpanAt l k = false) :
    findJsonSpan l = some (spanAt l i) := by
  induction l generalizing i with
  | nil => simp [opensSpanAt] at h
  | cons c rest ih =>
    cases i with
    | zero =>
      simp only [opensSpanAt, List.getD_cons_zero, List.drop_succ_cons,
        List.drop_zero, Bool.or_eq_true, Bool.and_eq_true, decide_eq_true_eq] at h
      rcases h with ⟨hc, hm⟩ | ⟨hc, hm⟩
      · have hmem : '}' ∈ rest := contains_true_iff.mp hm
        rw [findJsonSpan_cons_brace c rest hc hmem, cons_takeToLast _ _ _ hmem]
        subst hc
        simp [spanAt, closeFor]
      · have hmem : ']' ∈ rest := contains_true_iff.mp hm
        rw [findJsonSpan_cons_bracket c rest hc hmem, cons_takeToLast _ _ _ hmem]
        subst hc
        simp [spanAt, closeFor]
    | succ k =>
      have h0 := hmin 0 (Nat.succ_pos k)
      simp only [opensSpanAt, List.getD_cons_zero, List.drop_succ_cons,
        List.drop_zero, Bool.or_eq_false_iff, Bool.and_eq_false_iff] at h0
      rcases h0 with ⟨h01, h02⟩
      have n1 : ¬(c = '{' ∧ '}' ∈ rest) := by
        rintro ⟨a, b⟩
        rcases h01 with h' | h'
        · simp only [decide_eq_false_iff_not] at h'
          exact h' a
        · exact Bool.false_ne_true (h' ▸ contains_true_iff.mpr b)
      have n2 : ¬(c = '[' ∧ ']' ∈ rest) := by
        rintro ⟨a, b⟩
        rcases h02 with h' | h'
        · simp only [decide_eq_false_iff_not] at h'
          exact h' a
        · exact Bool.false_ne_true (h' ▸ contains_true_iff.mpr b)
      rw [findJsonSpan_cons_skip _ _ n1 n2]
      have h' : opensSpanAt rest k = true := by
        rw [opensSpanAt_cons_succ] at h
        exact h
      have hmin' : ∀ m, m < k → opensSpanAt rest m = false := by
        intro m hmk
        have := hmin (m + 1) (Nat.succ_lt_succ hmk)
        rw [opensSpanAt_cons_succ] at this
        exact this
      rw [ih k h' hmin']
      have hclose : closeFor (rest.getD k ' ') ∈ rest := by
        simp only [opensSpanAt, Bool.or_eq_true, Bool.and_eq_true, decide_eq_true_eq] at h'
        rcases h' with ⟨hc, hm⟩ | ⟨hc, hm⟩
        · rw [hc]
          have hcf : closeFor '{' = '}' := by simp [closeFor]
          rw [hcf]
          exact List.mem_of_mem_drop (contains_true_iff.mp hm)
        · rw [hc]
          have hcf : closeFor '[' = ']' := by simp [closeFor]
          rw [hcf]
          exact List.mem_of_mem_drop (contains_true_iff.mp hm)
      exact congrArg some (spanAt_cons_succ c rest k hclose).symm

/-! ### The no-fence / no-span failure path -/

/-- The text contains a Markdown fence marker: three consecutive backticks. -/
def hasFence : List Char → Bool
  | c1 :: c2 :: c3 :: rest =>
    (c1 == btick && c2 == btick && c3 == btick) || hasFence (c2 :: c3 :: rest)
  | _ => false

theorem hasFence_cons (c : Char) (rest : List Char) (h : hasFence rest = true) :
    hasFence (c :: rest) = true := by
  match rest with
  | [] => simp [hasFence] at h
  | [a] => simp [hasFence] at h
  | a :: b :: t =>
    unfold hasFence
    rw [h]
    simp

theorem hasFence_of_suffix (s l : List Char) (hsuf : ∃ t, t ++ s = l)
    (h : hasFence s = true) : hasFence l = true := by
  obtain ⟨t, rfl⟩ := hsuf
  induction t with
  | nil => simpa using h
  | cons a t iht => exact hasFence_cons a (t ++ s) iht

theorem hasFence_not_cons (c : Char) (rest : List Char)
    (h : hasFence (c :: rest) = false) : hasFence rest = false := by
  cases hr : hasFence rest with
  | false => rfl
  | true => rw [hasFence_cons c rest hr] at h; exact h.symm ▸ rfl

theorem take3_eq_of_fence {l : List Char} (h : l.take 3 = [btick, btick, btick]) :
    hasFence l = true := by
  match l with
  | [] => simp at h
  | [a] => simp at h
  | [a, b] => simp at h
  | a :: b :: c :: t =>
    simp only [List.take_succ_cons, List.take_zero, List.cons.injEq, and_true] at h
    obtain ⟨rfl, rfl, rfl⟩ := h
    unfold hasFence
    simp

theorem subFenceOpenAux_of_noFence (fuel : Nat) :
    ∀ l : List Char, hasFence l = false → subFenceOpenAux fuel l = l := by
  induction fuel with
  | zero =>
    intro l h
    cases l <;> rfl
  | succ fuel ih =>
    intro l h
    cases l with
    | nil => rfl
    | cons c rest =>
      have hcond : ¬((c :: rest).take 3 = [btick, btick, btick]) := by
        intro hc
        rw [take3_eq_of_fence hc] at h
        exact Bool.noConfusion h
      conv_lhs => unfold subFenceOpenAux
      rw [if_neg hcond, ih rest (hasFence_not_cons c rest h)]

theorem subFenceOpen_of_noFence (l : List Char) (h : hasFence l = false) :
    subFenceOpen l = l :=
  subFenceOpenAux_of_noFence l.length l h

theorem subFenceCloseAux_of_noFence (fuel : Nat) :
    ∀ l : List Char, hasFence l = false → subFenceCloseAux fuel l = l := by
  induction fuel with
  | zero =>
    intro l h
    cases l <;> rfl
  | succ fuel ih =>
    intro l h
    cases l with
    | nil => rfl
    | cons c rest =>
      have hcond : ¬ wsFenceAt (c :: rest) := by
        intro hw
        have hfd : hasFence ((c :: rest).dropWhile pyIsSpace) = true := take3_eq_of_fence hw
        have hsuf : ∃ t, t ++ (c :: rest).dropWhile pyIsSpace = c :: rest :=
          List.dropWhile_suffix pyIsSpace
        rw [hasFence_of_suffix _ _ hsuf hfd] at h
        exact Bool.noConfusion h
      conv_lhs => unfold subFenceCloseAux
      rw [if_neg hcond, ih rest (hasFence_not_cons c rest h)]

theorem subFenceClose_of_noFence (l : List Char) (h : hasFence l = false) :
    subFenceClose l = l :=
  subFenceCloseAux_of_noFence l.length l h

/-- `pyStrip l` sits inside `l`: an explicit decomposition witness. -/
theorem pyStrip_parts (l : List Char) : ∃ s t, s ++ pyStrip l ++ t = l := by
  obtain ⟨s1, hs1⟩ := List.dropWhile_suffix (l := l) pyIsSpace
  obtain ⟨s2, hs2⟩ := List.dropWhile_suffix (l := (l.dropWhile pyIsSpace).reverse) pyIsSpace
  refine ⟨s1, s2.reverse, ?_⟩
  have h2 : (pyStrip l) ++ s2.reverse = l.dropWhile pyIsSpace := by
    have := congrArg List.reverse hs2
    simpa [pyStrip, List.reverse_append] using this
  rw [List.append_assoc, h2, hs1]

theorem spanDecomp_of_parts (s t l : List Char) (h : SpanDecomp l) :
    SpanDecomp (s ++ l ++ t) := by
  rcases h with ⟨pre, mid, post, rfl⟩ | ⟨pre, mid, post, rfl⟩
  · exact Or.inl ⟨s ++ pre, mid, post ++ t, by simp⟩
  · exact Or.inr ⟨s ++ pre, mid, post ++ t, by simp⟩

theorem spanDecomp_cons (c : Char) (l : List Char) (h : SpanDecomp l) :
    SpanDecomp (c :: l) := by
  have := spanDecomp_of_parts [c] [] l h
  simpa using this

theorem findJsonSpan_none_of_no_span (l : List Char) (h : ¬ SpanDecomp l) :
    findJsonSpan l = none := by
  induction l with
  | nil => rfl
  | cons c rest ih =>
    have n1 : ¬(c = '{' ∧ '}' ∈ rest) := by
      rintro ⟨rfl, hm⟩
      obtain ⟨u, v, rfl⟩ := List.append_of_mem hm
      exact h (Or.inl ⟨[], u, v, rfl⟩)
    have n2 : ¬(c = '[' ∧ ']' ∈ rest) := by
      rintro ⟨rfl, hm⟩
      obtain ⟨u, v, rfl⟩ := List.append_of_mem hm
      exact h (Or.inr ⟨[], u, v, rfl⟩)
    rw [findJsonSpan_cons_skip c rest n1 n2]
    exact ih (fun hd => h (spanDecomp_cons c rest hd))

theorem spanDecomp_mem (l : List Char) (h : SpanDecomp l) : '{' ∈ l ∨ '[' ∈ l := by
  rcases h with ⟨pre, mid, post, rfl⟩ | ⟨pre, mid, post, rfl⟩
  · exact Or.inl (by simp)
  · exact Or.inr (by simp)

/-- **C7.**  For every input text containing, after Markdown fence
stripping, at least one top-level `{...}` or `[...]` span, the normalizer
returns exactly the substring from the first opening bracket (the first
position that opens a span) to the last matching closing bracket of the
same kind — neither truncated nor over-extended; and for every input
containing neither a fence nor any bracketed span it fails with the
no-structure-found error. -/
theorem c7_normalizer_first_greedy_span (content : String) :
    (∀ i, opensSpanAt (strippedOf content) i = true →
      (∀ k, k < i → opensSpanAt (strippedOf content) k = false) →
      clean_json_string content = .ok (String.mk (spanAt (strippedOf content) i))) ∧
    (hasFence content.data = false → ¬ SpanDecomp content.data →
      clean_json_string content = .error "No valid JSON structure found in response") := by
  constructor
  · intro i h hmin
    unfold clean_json_string
    rw [findJsonSpan_of_first _ _ h hmin]
  · intro hf hs
    have hstr : strippedOf content = pyStrip content.data := by
      unfold strippedOf
      rw [subFenceOpen_of_noFence _ hf, subFenceClose_of_noFence _ hf]
    have hnos : ¬ SpanDecomp (pyStrip content.data) := by
      intro hd
      obtain ⟨s, t, hst⟩ := pyStrip_parts content.data
      exact hs (hst ▸ spanDecomp_of_parts s t _ hd)
    unfold clean_json_string
    rw [hstr, findJsonSpan_none_of_no_span _ hnos]

/-- Witness for C7: a narrative-wrapped object is extracted exactly, and a
text with no fence and no brackets is rejected. -/
theorem c7_normalizer_first_greedy_span_witness :
    clean_json_string "noise {a: 1} end." = .ok "{a: 1}" ∧
    clean_json_string "no structure here." =
      .error "No valid JSON structure found in response" := by
  constructor
  · have h := (c7_normalizer_first_greedy_span "noise {a: 1} end.").1 6
      (by decide) (by decide)
    rw [h]
    rfl
  · have hns : ¬ SpanDecomp ("no structure here.".data) := by
      intro hd
      rcases spanDecomp_mem _ hd with hm | hm <;> revert hm <;> decide
    exact (c7_normalizer_first_greedy_span "no structure here.").2 (by decide) hns

/-! ## Schema validators

`validate_json_structure` (`src/utils/process_prompts.py` lines 44-99;
the identical method `OpenRouterClient._validate_json_structure` is in
`src/utils/openrouter.py` lines 150-205) validates the rich six-field idea
schema.  `IdeaGenerator._validate_and_normalize_response`
(`src/processors/idea_generator.py` lines 31-79) validates the minimal
`{Idea, Details}` schema after unwrapping a list-valued sub-field.
Python type objects inside error messages (`<class 'str'>` etc.) are
rendered as the short names `str` / `list` / `PyJson.typeName`. -/

/-- The expected kind of a required field: `str` or `list` (of strings). -/
inductive FieldKind where
  | strField
  | listField

/-- The `required_fields` dict of `validate_json_structure`, in insertion
order. -/
def required_fields : List (String × FieldKind) :=
  [("Product Idea", .strField),
   ("Problem it solves", .strField),
   ("Software Techstack", .listField),
   ("Target hardware expectations", .listField),
   ("Company profile", .strField),
   ("Engineering profile", .strField)]

/-- The inner field loop of `validate_json_structure` for item `i`:
missing field, wrong type, then non-string list elements, in source
order, failing on the first violation. -/
def check_required_fields (i : Nat) (kvs : List (String × PyJson)) :
    List (String × FieldKind) → Except String Unit
  | [] => .ok ()
  | (field, kind) :: rest =>
    if !(dictContains kvs field) then
      .error ("Item " ++ toString i ++ " missing required field: " ++ field)
    else
      match kind with
      | .strField =>
        if (dictGet kvs field).isStr then check_required_fields i kvs rest
        else .error ("Item " ++ toString i ++ " field '" ++ field ++
          "' has wrong type: expected str, got " ++ (dictGet kvs field).typeName)
      | .listField =>
        match dictGet kvs field with
        | .arr xs =>
          if xs.all PyJson.isStr then check_required_fields i kvs rest
          else .error ("Item " ++ toString i ++ " field '" ++ field ++
            "' contains non-string values")
        | v => .error ("Item " ++ toString i ++ " field '" ++ field ++
            "' has wrong type: expected list, got " ++ v.typeName)

/-- The item loop of `validate_json_structure`, starting at index `i`:
each item must be a dict satisfying all required fields; the first
violation aborts the whole batch. -/
def validate_items (i : Nat) : List PyJson → Except String (List PyJson)
  | [] => .ok []
  | item :: rest =>
    match item with
    | .obj kvs =>
      match check_required_fields i kvs required_fields with
      | .error e => .error e
      | .ok _ =>
        match validate_items (i + 1) rest with
        | .error e => .error e
        | .ok vs => .ok (item :: vs)
    | _ => .error ("Item " ++ toString i ++ " is not a dictionary")

/-- The trailing empty check of `validate_json_structure`. -/
def finishValidate : Except String (List PyJson) → Except String (List PyJson)
  | .error e => .error e
  | .ok vs => if vs.isEmpty then .error "No valid items found in response" else .ok vs

/-- `validate_json_structure` (`src/utils/process_prompts.py` lines 44-99):
a dict is wrapped into a one-element list, a list is validated item by
item, anything else is rejected; an empty validated list is rejected. -/
def validate_json_structure (data : PyJson) : Except String (List PyJson) :=
  match data with
  | .arr items => finishValidate (validate_items 0 items)
  | .obj kvs => finishValidate (validate_items 0 [.obj kvs])
  | _ => .error ("Expected list or dict, got " ++ data.typeName)

/-- The dict scan of `_validate_and_normalize_response`: the first value
that is a list, if any. -/
def firstListValue : List (String × PyJson) → Option PyJson
  | [] => none
  | (_, v) :: rest => if v.isArr then some v else firstListValue rest

/-- The item loop of `_validate_and_normalize_response`: each idea must be
a dict with string fields `Idea` and `Details`; the first violation aborts
the whole batch. -/
def validate_idea_items (i : Nat) : List PyJson → Except String (List PyJson)
  | [] => .ok []
  | idea :: rest =>
    match idea with
    | .obj kvs =>
      if !(dictContains kvs "Idea") || !(dictContains kvs "Details") then
        .error ("Idea " ++ toString i ++ " missing required fields")
      else if !((dictGet kvs "Idea").isStr) || !((dictGet kvs "Details").isStr) then
        .error ("Idea " ++ toString i ++ " has invalid field types")
      else
        match validate_idea_items (i + 1) rest with
        | .error e => .error e
        | .ok vs => .ok (.obj kvs :: vs)
    | _ => .error ("Idea " ++ toString i ++ " is not a dictionary")

/-- `IdeaGenerator._validate_and_normalize_response`
(`src/processors/idea_generator.py` lines 31-79): if the data is a dict,
its first list-valued entry (when one exists) becomes the candidate
sequence; the candidate sequence must be a list, validated item by item. -/
def validate_and_normalize_response (data : PyJson) : Except String (List PyJson) :=
  let ideasArray :=
    match data with
    | .obj kvs => (firstListValue kvs).getD (.obj kvs)
    | _ => data
  match ideasArray with
  | .arr items => validate_idea_items 0 items
  | _ => .error "Expected list of ideas"

/-- `validate_dependencies` (`src/utils/process_prompts.py` lines 310-333):
the data must be a list of strings; the result is the frameworks list. -/
def validate_dependencies (data : PyJson) : Except String (List String) :=
  match data with
  | .arr xs =>
    if xs.all PyJson.isStr then
      .ok (xs.map fun x => match x with | .str s => s | _ => "")
    else .error "All frameworks must be strings"
  | _ => .error "Expected list response"

/-! ## Sample records and validator facts (claims C4, C5) -/

/-- A record satisfying the rich six-field schema. -/
def sampleRichIdea : PyJson :=
  .obj [("Product Idea", .str "P"),
        ("Problem it solves", .str "Q"),
        ("Software Techstack", .arr [.str "Python"]),
        ("Target hardware expectations", .arr [.str "Cloud"]),
        ("Company profile", .str "C"),
        ("Engineering profile", .str "E")]

/-- The record `{"Idea": "X", "Details": "Y"}` of the minimal schema. -/
def sampleIdea : PyJson := .obj [("Idea", .str "X"), ("Details", .str "Y")]

/-- Does `pat` occur as a contiguous substring of `l`? -/
def listContainsSub (pat : List Char) : List Char → Bool
  | [] => pat.isEmpty
  | c :: rest => pat.isPrefixOf (c :: rest) || listContainsSub pat rest

theorem firstListValue_isArr (kvs : List (String × PyJson)) (v : PyJson)
    (h : firstListValue kvs = some v) : v.isArr = true := by
  induction kvs with
  | nil => simp [firstListValue] at h
  | cons kv rest ih =>
    rw [firstListValue] at h
    split at h
    · cases h
      assumption
    · exact ih h

/-- The per-item acceptance test of `_validate_and_normalize_response`:
a dict containing string fields `Idea` and `Details`. -/
def ideaItemOk : PyJson → Bool
  | .obj kvs =>
    !(!(dictContains kvs "Idea") || !(dictContains kvs "Details")) &&
    !(!((dictGet kvs "Idea").isStr) || !((dictGet kvs "Details").isStr))
  | _ => false

/-- The error message `_validate_and_normalize_response` produces for an
invalid item at index `i`. -/
def ideaItemError (i : Nat) : PyJson → String
  | .obj kvs =>
    if !(dictContains kvs "Idea") || !(dictContains kvs "Details") then
      "Idea " ++ toString i ++ " missing required fields"
    else
      "Idea " ++ toString i ++ " has invalid field types"
  | _ => "Idea " ++ toString i ++ " is not a dictionary"

theorem validate_idea_items_first_err (item : PyJson) (hbad : ideaItemOk item = false) :
    ∀ (pre : List PyJson) (i : Nat) (post : List PyJson),
      (∀ x ∈ pre, ideaItemOk x = true) →
      validate_idea_items i (pre ++ item :: post) =
        .error (ideaItemError (i + pre.length) item) := by
  intro pre
  induction pre with
  | nil =>
    intro i post hpre
    simp only [List.nil_append, List.length_nil, Nat.add_zero]
    cases item with
    | obj kvs =>
      rw [ideaItemOk] at hbad
      by_cases hc1 : (!(dictContains kvs "Idea") || !(dictContains kvs "Details")) = true
      · conv_lhs => rw [validate_idea_items]
        rw [if_pos hc1, ideaItemError, if_pos hc1]
      · have hc1f := Bool.eq_false_iff.mpr hc1
        have hc2 : (!((dictGet kvs "Idea").isStr) || !((dictGet kvs "Details").isStr)) = true := by
          cases hb2 : (!((dictGet kvs "Idea").isStr) || !((dictGet kvs "Details").isStr)) with
          | true => rfl
          | false =>
            rw [hc1f, hb2] at hbad
            simp at hbad
        conv_lhs => rw [validate_idea_items]
        rw [if_neg hc1, if_pos hc2, ideaItemError, if_neg hc1]
    | null => rfl
    | bool b => rfl
    | num n => rfl
    | str s => rfl
    | arr xs => rfl
  | cons p pre ih =>
    intro i post hpre
    have hp : ideaItemOk p = true := hpre p (List.mem_cons_self _ _)
    cases p with
    | obj kvs =>
      rw [ideaItemOk] at hp
      rw [Bool.and_eq_true] at hp
      have hc1 : ¬((!(dictContains kvs "Idea") || !(dictContains kvs "Details")) = true) := by
        intro hh
        rw [hh] at hp
        simp at hp
      have hc2 : ¬((!((dictGet kvs "Idea").isStr) || !((dictGet kvs "Details").isStr)) = true) := by
        intro hh
        rw [hh] at hp
        simp at hp
      conv_lhs => rw [List.cons_append, validate_idea_items]
      rw [if_neg hc1, if_neg hc2, ih (i + 1) post (fun x hx => hpre x (List.mem_cons_of_mem _ hx))]
      simp only [List.length_cons]
      have : i + 1 + pre.length = i + (pre.length + 1) := by omega
      rw [this]
    | null => simp [ideaItemOk] at hp
    | bool b => simp [ideaItemOk] at hp
    | num n => simp [ideaItemOk] at hp
    | str s => simp [ideaItemOk] at hp
    | arr xs => simp [ideaItemOk] at hp

/-- **C4 (counterexample).**  `validate_json_structure` does not unwrap a
list-valued sub-field: the wrapper mapping `{"ideas": [<valid record>]}` is
treated as a single record and rejected for missing the required fields,
even though the nested list itself validates. -/
theorem c4_wrapper_counterexample :
    validate_json_structure (.obj [("ideas", .arr [sampleRichIdea])]) =
      .error "Item 0 missing required field: Product Idea" ∧
    validate_json_structure (.arr [sampleRichIdea]) = .ok [sampleRichIdea] := by
  exact ⟨rfl, rfl⟩

/-- **C4 (amended).**  The IdeaGenerator validator
`_validate_and_normalize_response` unwraps the first list-valued sub-field
of a mapping and validates it as the candidate sequence (the result is the
same as validating that nested list directly), whereas the generic
`validate_json_structure` does not unwrap: it wraps the mapping itself as a
single-record list. -/
theorem c4_unwrap_amended :
    (∀ (kvs : List (String × PyJson)) (v : PyJson), firstListValue kvs = some v →
      validate_and_normalize_response (.obj kvs) = validate_and_normalize_response v) ∧
    (∀ kvs : List (String × PyJson),
      validate_json_structure (.obj kvs) = validate_json_structure (.arr [.obj kvs])) := by
  constructor
  · intro kvs v hfl
    have hA := firstListValue_isArr kvs v hfl
    cases v with
    | arr items => simp [validate_and_normalize_response, hfl]
    | null => simp [PyJson.isArr] at hA
    | bool b => simp [PyJson.isArr] at hA
    | num n => simp [PyJson.isArr] at hA
    | str s => simp [PyJson.isArr] at hA
    | obj kvs2 => simp [PyJson.isArr] at hA
  · intro kvs
    rfl

/-- Witness for the amended C4 at concrete inputs. -/
theorem c4_unwrap_amended_witness :
    validate_and_normalize_response (.obj [("ideas", .arr [sampleIdea])]) =
      validate_and_normalize_response (.arr [sampleIdea]) ∧
    validate_json_structure (.obj [("x", .str "y")]) =
      validate_json_structure (.arr [.obj [("x", .str "y")]]) :=
  ⟨c4_unwrap_amended.1 _ _ rfl, c4_unwrap_amended.2 _⟩

/-- **C5 (counterexample).**  Under the `{Idea, Details}` schema, the input
`[{"Idea": "X"}]` fails with the message `Idea 0 missing required fields`,
which does not name the missing field `Details`. -/
theorem c5_missing_field_counterexample :
    validate_and_normalize_response (.arr [.obj [("Idea", .str "X")]]) =
      .error "Idea 0 missing required fields" ∧
    listContainsSub "Details".data "Idea 0 missing required fields".data = false := by
  exact ⟨rfl, rfl⟩

/-- **C5 (amended).**  Validation raises on the first violation — the whole
batch is rejected, with no per-item skipping — with an error naming the
item index (but, in the `{Idea, Details}` validator, not the offending
field): the first invalid item in the candidate sequence determines the
error; `[{"Idea":"X","Details":"Y"}]` validates; `[{"Idea":"X"}]` fails
with `Idea 0 missing required fields`. -/
theorem c5_first_violation_amended :
    (∀ (pre : List PyJson) (item : PyJson) (post : List PyJson),
      (∀ x ∈ pre, ideaItemOk x = true) → ideaItemOk item = false →
      validate_and_normalize_response (.arr (pre ++ item :: post)) =
        .error (ideaItemError pre.length item)) ∧
    validate_and_normalize_response (.arr [sampleIdea]) = .ok [sampleIdea] ∧
    validate_and_normalize_response (.arr [.obj [("Idea", .str "X")]]) =
      .error "Idea 0 missing required fields" := by
  refine ⟨?_, rfl, rfl⟩
  intro pre item post hpre hbad
  have h := validate_idea_items_first_err item hbad pre 0 post hpre
  simpa [validate_and_normalize_response] using h

/-- Witness for the amended C5: the first-violation rule applied to a
batch with one valid record followed by an invalid one. -/
theorem c5_first_violation_amended_witness :
    validate_and_normalize_response
        (.arr [sampleIdea, .obj [("Idea", .str "X")], .null]) =
      .error "Idea 1 missing required fields" := by
  have h := c5_first_violation_amended.1 [sampleIdea] (.obj [("Idea", .str "X")]) [.null]
    (by decide) (by decide)
  exact h

/-! ## The format-retry loop and the conversational batch loop

`handle_json_response` (`src/utils/process_prompts.py` lines 101-158) and
`generate_ideas` (lines 160-236) / `generate_dependencies` (lines 335-376)
built on top of it.  External collaborators are parameters:

* `respond k` is the text content delivered by the `k`-th successful
  transport exchange of the pipeline run (`_make_request` followed by the
  `["choices"][0]["message"]["content"]` projection);
* `jsonParse` is the stdlib `json.loads` (`none` models
  `json.JSONDecodeError`);
* `errorPrompt` is the text of the error-correction prompt file
  `prompts/e1-wrong_format.txt` (assumed readable; an unreadable file
  raises `RuntimeError` on a different path not modelled here).

Each function also returns the next global exchange index, so that the
number of transport round trips is `next - start`. -/

mutual

/-- An abstraction of the stdlib `json.dumps` serializer (string escaping
omitted); the pipeline only threads its output back into the conversation
and never re-parses it. -/
def jsonDumps : PyJson → String
  | .null => "null"
  | .bool true => "true"
  | .bool false => "false"
  | .num n => toString n
  | .str s => "\"" ++ s ++ "\""
  | .arr xs => "[" ++ jsonDumpsList xs ++ "]"
  | .obj kvs => "\x7b" ++ jsonDumpsObj kvs ++ "\x7d"

/-- Comma-separated serialization of a list of values. -/
def jsonDumpsList : List PyJson → String
  | [] => ""
  | [x] => jsonDumps x
  | x :: y :: rest => jsonDumps x ++ ", " ++ jsonDumpsList (y :: rest)

/-- Comma-separated serialization of the bindings of a dict. -/
def jsonDumpsObj : List (String × PyJson) → String
  | [] => ""
  | [kv] => "\"" ++ kv.1 ++ "\": " ++ jsonDumps kv.2
  | kv :: kv2 :: rest => "\"" ++ kv.1 ++ "\": " ++ jsonDumps kv.2 ++ ", " ++
      jsonDumpsObj (kv2 :: rest)

end

/-- One attempt of the `handle_json_response` loop body:
`clean_json_string` followed by `json.loads`; a `ValueError` from the
former and a `JSONDecodeError` from the latter land in the same handler. -/
def parse_attempt (jsonParse : String → Option PyJson) (content : String) :
    Except String PyJson :=
  match clean_json_string content with
  | .ok cleaned =>
    match jsonParse cleaned with
    | some data => .ok data
    | none => .error "json decode error"
  | .error e => .error e

/-- The retry loop of `handle_json_response`, with `r` attempts left out of
`maxRetries` total, at global exchange index `idx`: clean and parse the
response; on format failure at the last attempt raise the exhaustion
`ValueError`, otherwise append the failed reply and the error-correction
prompt to the conversation and retry. -/
def handle_json_response_aux (jsonParse : String → Option PyJson)
    (respond : Nat → String) (errorPrompt : String) (maxRetries : Nat) :
    Nat → Nat → List Message → Except String PyJson × Nat × List Message
  | 0, idx, msgs => (.ok .null, idx, msgs)
  | 1, idx, msgs =>
    match parse_attempt jsonParse (respond idx) with
    | .ok data => (.ok data, idx + 1, msgs)
    | .error _ =>
      (.error ("Failed to get valid JSON format after " ++ toString maxRetries ++
        " attempts"), idx + 1, msgs)
  | r + 2, idx, msgs =>
    match parse_attempt jsonParse (respond idx) with
    | .ok data => (.ok data, idx + 1, msgs)
    | .error _ =>
      handle_json_response_aux jsonParse respond errorPrompt maxRetries (r + 1) (idx + 1)
        (msgs ++ [⟨"assistant", respond idx⟩, ⟨"user", errorPrompt⟩])

/-- `handle_json_response` (`src/utils/process_prompts.py` lines 101-158),
started at global exchange index `startIdx`.  When `maxRetries = 0` the
Python `for` loop body never runs and the function returns `None`. -/
def handle_json_response (jsonParse : String → Option PyJson) (respond : Nat → String)
    (errorPrompt : String) (msgs : List Message) (maxRetries : Nat) (startIdx : Nat) :
    Except String PyJson × Nat × List Message :=
  handle_json_response_aux jsonParse respond errorPrompt maxRetries maxRetries startIdx msgs

/-- The `while remaining_ideas > 0` loop of `generate_ideas`
(`src/utils/process_prompts.py` lines 212-233).  `vinit` is the validated
*initial* batch (the Python loop keeps serializing `validated_ideas`, the
variable bound to the first batch), `acc` the accumulator, `remaining` the
signed remaining count, `sizes` the trace of requested batch sizes.  The
fuel is an upper bound on the number of iterations; each iteration of the
source loop strictly decreases `remaining` because validated batches are
never empty, so fuel `remaining.toNat` is enough (claim C10). -/
def generate_ideas_loop (jsonParse : String → Option PyJson) (respond : Nat → String)
    (errorPrompt : String) (moreItemsPrompt : String) (maxFormatRetries : Nat)
    (fuel idx : Nat) (msgs : List Message) (vinit acc : List PyJson)
    (remaining : Int) (sizes : List Int) :
    Except String (List PyJson) × Nat × List Int :=
  if remaining ≤ 0 then (.ok acc, idx, sizes)
  else
    match fuel with
    | 0 => (.error "loop fuel exhausted", idx, sizes)
    | fuel + 1 =>
        match handle_json_response jsonParse respond errorPrompt
            (msgs ++ [⟨"assistant", jsonDumps (.arr vinit)⟩,
              ⟨"user", moreItemsPrompt.replace "{NUM}" (toString (min 25 remaining))⟩])
            maxFormatRetries idx with
        | (.error e, idx2, _) => (.error e, idx2, sizes ++ [min 25 remaining])
        | (.ok data, idx2, msgs3) =>
          match validate_json_structure data with
          | .error e => (.error e, idx2, sizes ++ [min 25 remaining])
          | .ok batch =>
            generate_ideas_loop jsonParse respond errorPrompt moreItemsPrompt maxFormatRetries
              fuel idx2 msgs3 vinit (acc ++ batch) (remaining - batch.length)
              (sizes ++ [min 25 remaining])

/-- `generate_ideas` (`src/utils/process_prompts.py` lines 160-236): an
initial structured exchange requesting `min(25, num_ideas)` items, then
batches of `min(25, remaining)` until `remaining ≤ 0`; every batch goes
through `handle_json_response` and `validate_json_structure`, and every
raised error propagates.  Returns the validated records in the order
produced, the total number of transport exchanges, and the trace of
requested batch sizes. -/
def generate_ideas (jsonParse : String → Option PyJson) (respond : Nat → String)
    (errorPrompt : String) (prompt : String) (moreItemsPrompt : String)
    (numIdeas : Int) (maxFormatRetries : Nat) :
    Except String (List PyJson) × Nat × List Int :=
  match handle_json_response jsonParse respond errorPrompt
      [⟨"system", "You are a Product Manager that provides responses in valid JSON format."⟩,
       ⟨"user", prompt.replace "{NUM_IDEAS}" (toString (min 25 numIdeas))⟩]
      maxFormatRetries 0 with
  | (.error e, idx, _) => (.error e, idx, [min 25 numIdeas])
  | (.ok data, idx, msgs2) =>
    match validate_json_structure data with
    | .error e => (.error e, idx, [min 25 numIdeas])
    | .ok validated =>
      generate_ideas_loop jsonParse respond errorPrompt moreItemsPrompt maxFormatRetries
        (numIdeas - validated.length).toNat idx msgs2 validated validated
        (numIdeas - validated.length) [min 25 numIdeas]

/-- `generate_dependencies` (`src/utils/process_prompts.py` lines 335-376):
one structured exchange (with `max_retries = 3`) whose parsed value is
validated as a flat string list; *every* exception — including format-retry
exhaustion — is absorbed into the empty result `{"frameworks": []}`. -/
def generate_dependencies (jsonParse : String → Option PyJson) (respond : Nat → String)
    (errorPrompt : String) (prompt : String) (code : String) (startIdx : Nat) :
    List String × Nat :=
  match handle_json_response jsonParse respond errorPrompt
      [⟨"system", "You are a production engineer that analyzes code dependencies."⟩,
       ⟨"user", prompt.replace "{DETAILS}" code⟩] 3 startIdx with
  | (.error _, idx, _) => ([], idx)
  | (.ok data, idx, _) =>
    match validate_dependencies data with
    | .error _ => ([], idx)
    | .ok frameworks => (frameworks, idx)

/-! ## Retry-loop facts (claims C2, C3, C10) -/

/-- The structured attempt on this reply fails format validation: either
the normalizer or the JSON parser rejects it. -/
def attemptFails (jsonParse : String → Option PyJson) (content : String) : Prop :=
  ∃ e, parse_attempt jsonParse content = .error e

theorem handle_aux_all_fail (jsonParse : String → Option PyJson) (respond : Nat → String)
    (errorPrompt : String) (maxRetries : Nat)
    (hfail : ∀ k, attemptFails jsonParse (respond k)) :
    ∀ r idx msgs, 1 ≤ r →
      ∃ m, handle_json_response_aux jsonParse respond errorPrompt maxRetries r idx msgs =
        (.error ("Failed to get valid JSON format after " ++ toString maxRetries ++
          " attempts"), idx + r, m) := by
  intro r
  induction r with
  | zero => omega
  | succ r ih =>
    intro idx msgs hr
    obtain ⟨e, he⟩ := hfail idx
    cases r with
    | zero =>
      refine ⟨msgs, ?_⟩
      rw [handle_json_response_aux, he]
    | succ r' =>
      obtain ⟨m, hm⟩ := ih (idx + 1)
        (msgs ++ [⟨"assistant", respond idx⟩, ⟨"user", errorPrompt⟩]) (by omega)
      have harith : idx + 1 + (r' + 1) = idx + (r' + 1 + 1) := by omega
      rw [harith] at hm
      refine ⟨m, ?_⟩
      rw [handle_json_response_aux, he]
      exact hm

theorem handle_aux_first_ok (jsonParse : String → Option PyJson) (respond : Nat → String)
    (errorPrompt : String) (maxRetries r idx : Nat) (msgs : List Message) (d : PyJson)
    (h : parse_attempt jsonParse (respond idx) = .ok d) (hr : 1 ≤ r) :
    handle_json_response_aux jsonParse respond errorPrompt maxRetries r idx msgs =
      (.ok d, idx + 1, msgs) := by
  match r, hr with
  | 1, _ =>
    rw [handle_json_response_aux, h]
  | r + 2, _ =>
    rw [handle_json_response_aux, h]

/-- **C2.**  With `max_format_retries = 3` and every structured attempt
failing format validation, the idea-generation path raises the fatal
format-exhaustion `ValueError` after exactly 3 transport attempts and the
error propagates out of `generate_ideas`, whereas `generate_dependencies`
absorbs the same exhaustion after the same 3 attempts and returns the empty
frameworks result instead of raising. -/
theorem c2_exhaustion_fatal_vs_absorbed
    (jsonParse : String → Option PyJson) (respond : Nat → String)
    (errorPrompt prompt moreItemsPrompt code : String) (numIdeas : Int)
    (hfail : ∀ k, attemptFails jsonParse (respond k)) :
    generate_ideas jsonParse respond errorPrompt prompt moreItemsPrompt numIdeas 3 =
      (.error "Failed to get valid JSON format after 3 attempts", 3, [min 25 numIdeas]) ∧
    generate_dependencies jsonParse respond errorPrompt prompt code 0 = ([], 3) := by
  obtain ⟨m, hm⟩ := handle_aux_all_fail jsonParse respond errorPrompt 3 hfail 3 0
    [⟨"system", "You are a Product Manager that provides responses in valid JSON format."⟩,
     ⟨"user", prompt.replace "{NUM_IDEAS}" (toString (min 25 numIdeas))⟩] (by omega)
  obtain ⟨m2, hm2⟩ := handle_aux_all_fail jsonParse respond errorPrompt 3 hfail 3 0
    [⟨"system", "You are a production engineer that analyzes code dependencies."⟩,
     ⟨"user", prompt.replace "{DETAILS}" code⟩] (by omega)
  constructor
  · unfold generate_ideas handle_json_response
    rw [hm]
    rfl
  · unfold generate_dependencies handle_json_response
    rw [hm2]

/-- Witness for C2: a parser that rejects everything exhausts the retries
on both paths. -/
theorem c2_exhaustion_fatal_vs_absorbed_witness :
    generate_ideas (fun _ => none) (fun _ => "not json") "fix it" "p" "m" 30 3 =
      (.error "Failed to get valid JSON format after 3 attempts", 3, [25]) ∧
    generate_dependencies (fun _ => none) (fun _ => "not json") "fix it" "p" "c" 0 =
      ([], 3) := by
  have h := c2_exhaustion_fatal_vs_absorbed (fun _ => none) (fun _ => "not json")
    "fix it" "p" "m" "c" 30
    (fun k => ⟨"No valid JSON structure found in response", rfl⟩)
  exact h

theorem generate_ideas_loop_stop (jsonParse : String → Option PyJson) (respond : Nat → String)
    (errorPrompt moreItemsPrompt : String) (mfr fuel idx : Nat) (msgs : List Message)
    (vinit acc : List PyJson) (remaining : Int) (sizes : List Int) (h : remaining ≤ 0) :
    generate_ideas_loop jsonParse respond errorPrompt moreItemsPrompt mfr
      fuel idx msgs vinit acc remaining sizes = (.ok acc, idx, sizes) := by
  rw [generate_ideas_loop.eq_def]
  rw [if_pos h]

theorem generate_ideas_loop_step (jsonParse : String → Option PyJson) (respond : Nat → String)
    (errorPrompt moreItemsPrompt : String) (mfr fuel idx : Nat) (msgs : List Message)
    (vinit acc : List PyJson) (remaining : Int) (sizes : List Int) (h : ¬(remaining ≤ 0)) :
    generate_ideas_loop jsonParse respond errorPrompt moreItemsPrompt mfr
      (fuel + 1) idx msgs vinit acc remaining sizes =
      (match handle_json_response jsonParse respond errorPrompt
          (msgs ++ [⟨"assistant", jsonDumps (.arr vinit)⟩,
            ⟨"user", moreItemsPrompt.replace "{NUM}" (toString (min 25 remaining))⟩])
          mfr idx with
       | (.error e, idx2, _) => (.error e, idx2, sizes ++ [min 25 remaining])
       | (.ok data, idx2, msgs3) =>
         match validate_json_structure data with
         | .error e => (.error e, idx2, sizes ++ [min 25 remaining])
         | .ok batch =>
           generate_ideas_loop jsonParse respond errorPrompt moreItemsPrompt mfr
             fuel idx2 msgs3 vinit (acc ++ batch) (remaining - batch.length)
             (sizes ++ [min 25 remaining])) := by
  rw [generate_ideas_loop.eq_def]
  rw [if_neg h]

/-- **C3.**  With target count 30 and batch size 25, when each structured
request immediately returns a batch of exactly the requested size that
passes validation, `generate_ideas` performs exactly 2 transport round
trips, requesting 25 and then `min(25, remaining) = 5` items, and returns
the 30 records in the order produced: the first batch followed by the
second. -/
theorem c3_two_round_trips (jsonParse : String → Option PyJson) (respond : Nat → String)
    (errorPrompt prompt moreItemsPrompt : String) (items0 items1 : List PyJson)
    (h0 : parse_attempt jsonParse (respond 0) = .ok (.arr items0))
    (h1 : parse_attempt jsonParse (respond 1) = .ok (.arr items1))
    (hv0 : validate_json_structure (.arr items0) = .ok items0)
    (hv1 : validate_json_structure (.arr items1) = .ok items1)
    (hl0 : items0.length = 25) (hl1 : items1.length = 5) :
    generate_ideas jsonParse respond errorPrompt prompt moreItemsPrompt 30 3 =
      (.ok (items0 ++ items1), 2, [25, 5]) := by
  unfold generate_ideas handle_json_response
  rw [handle_aux_first_ok _ _ _ 3 3 0 _ _ h0 (by omega)]
  simp only [hv0, hl0]
  norm_num
  rw [show ((5 : Int).toNat) = 4 + 1 from rfl]
  rw [generate_ideas_loop_step _ _ _ _ _ _ _ _ _ _ _ _ (by norm_num)]
  unfold handle_json_response
  rw [handle_aux_first_ok _ _ _ 3 3 1 _ _ h1 (by omega)]
  simp only [hv1, hl1]
  norm_num
  rw [generate_ideas_loop_stop _ _ _ _ _ _ _ _ _ _ _ _ (by norm_num)]

/-- Witness for C3 at a concrete parser and response sequence delivering
25 then 5 valid records. -/
theorem c3_two_round_trips_witness :
    generate_ideas
      (fun s => if s = "{a}" then some (.arr (List.replicate 25 sampleRichIdea))
        else some (.arr (List.replicate 5 sampleRichIdea)))
      (fun k => if k = 0 then "{a}" else "{b}") "e" "p" "m" 30 3 =
      (.ok (List.replicate 25 sampleRichIdea ++ List.replicate 5 sampleRichIdea), 2, [25, 5]) := by
  exact c3_two_round_trips _ _ "e" "p" "m" _ _ rfl rfl rfl rfl rfl rfl

/-- The empty-batch rejection of `validate_json_structure`, stated through
its trailing check. -/
theorem finishValidate_ok_ne_nil (r : Except String (List PyJson)) (l : List PyJson)
    (h : finishValidate r = .ok l) : l ≠ [] := by
  cases r with
  | error e => simp [finishValidate] at h
  | ok vs =>
    cases vs with
    | nil => simp [finishValidate, List.isEmpty] at h
    | cons a t =>
      simp [finishValidate, List.isEmpty] at h
      rw [← h]
      simp

theorem validate_json_structure_nonempty (d : PyJson) (l : List PyJson)
    (h : validate_json_structure d = .ok l) : l ≠ [] := by
  cases d with
  | arr items => exact finishValidate_ok_ne_nil _ _ h
  | obj kvs => exact finishValidate_ok_ne_nil _ _ h
  | null => simp [validate_json_structure] at h
  | bool b => simp [validate_json_structure] at h
  | num n => simp [validate_json_structure] at h
  | str s => simp [validate_json_structure] at h

theorem generate_ideas_loop_total (jsonParse : String → Option PyJson) (respond : Nat → String)
    (errorPrompt moreItemsPrompt : String) (mfr : Nat)
    (H : ∀ idx msgs, ∃ d idx2 msgs2 l,
      handle_json_response jsonParse respond errorPrompt msgs mfr idx = (.ok d, idx2, msgs2) ∧
      validate_json_structure d = .ok l) :
    ∀ (fuel : Nat) (remaining : Int) (idx : Nat) (msgs : List Message)
      (vinit acc : List PyJson) (sizes : List Int), remaining ≤ fuel →
      ∃ extra idx2 sizes2,
        generate_ideas_loop jsonParse respond errorPrompt moreItemsPrompt mfr
          fuel idx msgs vinit acc remaining sizes = (.ok (acc ++ extra), idx2, sizes2) ∧
        remaining ≤ extra.length := by
  intro fuel
  induction fuel with
  | zero =>
    intro remaining idx msgs vinit acc sizes hle
    refine ⟨[], idx, sizes, ?_, by simpa using hle⟩
    rw [generate_ideas_loop_stop _ _ _ _ _ _ _ _ _ _ _ _ (by exact_mod_cast hle)]
    simp
  | succ fuel ih =>
    intro remaining idx msgs vinit acc sizes hle
    by_cases hr : remaining ≤ 0
    · refine ⟨[], idx, sizes, ?_, by simpa using hr⟩
      rw [generate_ideas_loop_stop _ _ _ _ _ _ _ _ _ _ _ _ hr]
      simp
    · obtain ⟨d, idx2, msgs2, l, hh, hv⟩ := H idx
        (msgs ++ [⟨"assistant", jsonDumps (.arr vinit)⟩,
          ⟨"user", moreItemsPrompt.replace "{NUM}" (toString (min 25 remaining))⟩])
      have hne := validate_json_structure_nonempty d l hv
      have hlen : 1 ≤ l.length := by
        cases l with
        | nil => exact absurd rfl hne
        | cons a t => simp
      obtain ⟨extra, idx3, sizes3, hloop, hext⟩ := ih (remaining - l.length) idx2 msgs2
        vinit (acc ++ l) (sizes ++ [min 25 remaining])
        (by push_cast at hle ⊢; omega)
      refine ⟨l ++ extra, idx3, sizes3, ?_, ?_⟩
      · rw [generate_ideas_loop_step _ _ _ _ _ _ _ _ _ _ _ _ hr, hh]
        simp only [hv]
        rw [hloop]
        simp [List.append_assoc]
      · rw [List.length_append]
        push_cast at hext ⊢
        omega

/-- The batch loop returned normally with at least `n` validated records. -/
def returnsAtLeast (out : Except String (List PyJson) × Nat × List Int) (n : Int) : Prop :=
  match out with
  | (.ok res, _, _) => n ≤ res.length
  | (.error _, _, _) => False

/-- **C10.**  A validated batch is never empty (`validate_json_structure`
rejects an empty list), so the batch loop of `generate_ideas` strictly
decreases `remaining` on every iteration; for every `num_ideas` and every
response sequence whose structured exchanges all eventually yield a batch
passing validation, `generate_ideas` terminates normally with at least
`num_ideas` validated records. -/
theorem c10_loop_terminates :
    (∀ d l, validate_json_structure d = .ok l → l ≠ []) ∧
    (∀ (jsonParse : String → Option PyJson) (respond : Nat → String)
      (errorPrompt prompt moreItemsPrompt : String) (numIdeas : Int) (mfr : Nat),
      (∀ idx msgs, ∃ d idx2 msgs2 l,
        handle_json_response jsonParse respond errorPrompt msgs mfr idx =
          (.ok d, idx2, msgs2) ∧
        validate_json_structure d = .ok l) →
      returnsAtLeast
        (generate_ideas jsonParse respond errorPrompt prompt moreItemsPrompt numIdeas mfr)
        numIdeas) := by
  refine ⟨fun d l h => validate_json_structure_nonempty d l h, ?_⟩
  intro jsonParse respond errorPrompt prompt moreItemsPrompt numIdeas mfr H
  obtain ⟨d, idx2, msgs2, l, hh, hv⟩ := H 0
    [⟨"system", "You are a Product Manager that provides responses in valid JSON format."⟩,
     ⟨"user", prompt.replace "{NUM_IDEAS}" (toString (min 25 numIdeas))⟩]
  unfold generate_ideas
  rw [hh]
  simp only [hv]
  obtain ⟨extra, idx3, sizes3, hloop, hext⟩ :=
    generate_ideas_loop_total jsonParse respond errorPrompt moreItemsPrompt mfr H
      (numIdeas - l.length).toNat (numIdeas - l.length) idx2 msgs2 l l
      [min 25 numIdeas] (Int.self_le_toNat _)
  rw [hloop]
  simp only [returnsAtLeast]
  rw [List.length_append]
  push_cast at hext ⊢
  omega

/-- Witness for C10: a parser that always delivers one valid record
terminates with at least 3 records for `num_ideas = 3`, and the validated
batch `[sampleRichIdea]` is non-empty. -/
theorem c10_loop_terminates_witness :
    returnsAtLeast
      (generate_ideas (fun _ => some (.arr [sampleRichIdea])) (fun _ => "{x}")
        "e" "p" "m" 3 3) 3 ∧
    ([sampleRichIdea] : List PyJson) ≠ [] := by
  constructor
  · exact c10_loop_terminates.2 (fun _ => some (.arr [sampleRichIdea])) (fun _ => "{x}")
      "e" "p" "m" 3 3
      (fun idx msgs => ⟨.arr [sampleRichIdea], idx + 1, msgs, [sampleRichIdea],
        handle_aux_first_ok _ _ _ 3 3 idx msgs _ rfl (by omega), rfl⟩)
  · exact c10_loop_terminates.1 (.arr [sampleRichIdea]) [sampleRichIdea] rfl

/-! ## Transport client: `OpenRouterClient._make_request`

`src/utils/openrouter.py` lines 36-117.  The outcome of each
`requests.post` call is a parameter `respond`: a 2xx JSON body, a 401
status, a `Timeout`, an `HTTPError` raised by `raise_for_status`, or a
generic `RequestException`.  Exception reprs (`str(e)`) are the carried
strings. -/

/-- The outcome of one `requests.post` call. -/
inductive ReqOutcome where
  | success (resp : PyJson)
  | auth401
  | timeout
  | httpError (msg : String)
  | reqError (msg : String)

/-- A Python exception raised by `_make_request`: `ValueError` or
`RuntimeError`, with its message. -/
inductive ApiError where
  | valueError (msg : String)
  | runtimeError (msg : String)

/-- The retryable transport failures, as remembered in `last_error`. -/
inductive TransportFail where
  | timeout
  | http (msg : String)
  | req (msg : String)

/-- The retryable failure carried by an outcome (`none` for a success or a
401, which are not retried). -/
def failOf : ReqOutcome → Option TransportFail
  | .timeout => some .timeout
  | .httpError m => some (.http m)
  | .reqError m => some (.req m)
  | _ => none

/-- `str(last_error)` for the generic exhaustion message
(`str(None) = "None"`). -/
def lastErrStr : Option TransportFail → String
  | none => "None"
  | some .timeout => "timeout"
  | some (.http m) => m
  | some (.req m) => m

/-- The exhaustion `RuntimeError` message of `_make_request`, chosen by the
`isinstance` chain on `last_error`. -/
def exhaustMsg (maxRetries : Nat) (lastErr : Option TransportFail) : String :=
  match lastErr with
  | some .timeout => "Request timed out after " ++ toString maxRetries ++ " attempts"
  | some (.http m) =>
    "HTTP error persisted after " ++ toString maxRetries ++ " attempts: " ++ m
  | _ => "Request failed after " ++ toString maxRetries ++ " attempts: " ++ lastErrStr lastErr

/-- Record the timeout used by the current attempt in front of the trace of
a recursive call. -/
def recordTimeout (t : Nat) (p : Except ApiError PyJson × List Nat) :
    Except ApiError PyJson × List Nat :=
  (p.1, t :: p.2)

/-- The `for attempt in range(max_retries)` loop of `_make_request`, with
`rem` attempts left; attempt number `attempt` (0-based) uses timeout
`timeout * (attempt + 1)`.  A 401 raises `ValueError` at once (the `raise`
is not caught by the `except` clauses); a `Timeout`, `HTTPError` or
`RequestException` is remembered and retried; exhaustion raises the
`RuntimeError` chosen by `last_error`.  The second component is the trace
of timeouts used, one per attempt performed. -/
def make_request_loop (respond : Nat → ReqOutcome) (base maxRetries : Nat) :
    Nat → Nat → Option TransportFail → Except ApiError PyJson × List Nat
  | 0, _, lastErr => (.error (.runtimeError (exhaustMsg maxRetries lastErr)), [])
  | rem + 1, attempt, lastErr =>
    match respond attempt with
    | .success resp => (.ok resp, [base * (attempt + 1)])
    | .auth401 => (.error (.valueError "Invalid OpenRouter API key"), [base * (attempt + 1)])
    | .timeout =>
      recordTimeout (base * (attempt + 1))
        (make_request_loop respond base maxRetries rem (attempt + 1) (some .timeout))
    | .httpError m =>
      recordTimeout (base * (attempt + 1))
        (make_request_loop respond base maxRetries rem (attempt + 1) (some (.http m)))
    | .reqError m =>
      recordTimeout (base * (attempt + 1))
        (make_request_loop respond base maxRetries rem (attempt + 1) (some (.req m)))

/-- `OpenRouterClient._make_request` (`src/utils/openrouter.py` lines
36-117): a missing API key raises `ValueError` before any request;
otherwise the retry loop runs with `max_retries` attempts. -/
def make_request (apiKey : String) (respond : Nat → ReqOutcome) (base maxRetries : Nat) :
    Except ApiError PyJson × List Nat :=
  if apiKey = "" then (.error (.valueError "OpenRouter API key is missing"), [])
  else make_request_loop respond base maxRetries maxRetries 0 none

theorem trace_shift (base attempt n : Nat) :
    base * (attempt + 1) :: (List.range n).map (fun j => base * (attempt + 1 + j + 1)) =
      (List.range (n + 1)).map (fun j => base * (attempt + j + 1)) := by
  rw [List.range_succ_eq_map, List.map_cons, List.map_map]
  have h2 : List.map (fun j => base * (attempt + 1 + j + 1)) (List.range n) =
      List.map ((fun j => base * (attempt + j + 1)) ∘ Nat.succ) (List.range n) := by
    apply List.map_congr_left
    intro j hj
    show base * (attempt + 1 + j + 1) = base * (attempt + (j + 1) + 1)
    congr 1
    omega
  rw [h2]

theorem make_request_loop_timeouts (respond : Nat → ReqOutcome) (base maxRetries : Nat) :
    ∀ (rem attempt : Nat) (lastErr : Option TransportFail),
      (make_request_loop respond base maxRetries rem attempt lastErr).2 =
        (List.range (make_request_loop respond base maxRetries rem attempt lastErr).2.length).map
          (fun j => base * (attempt + j + 1)) := by
  intro rem
  induction rem with
  | zero =>
    intro attempt lastErr
    simp [make_request_loop]
  | succ rem ih =>
    intro attempt lastErr
    rw [make_request_loop]
    cases respond attempt with
    | success resp =>
      show [base * (attempt + 1)] = [base * (attempt + 0 + 1)]
      rw [Nat.add_zero]
    | auth401 =>
      show [base * (attempt + 1)] = [base * (attempt + 0 + 1)]
      rw [Nat.add_zero]
    | timeout =>
      simp only [recordTimeout, List.length_cons]
      rw [ih (attempt + 1), List.length_map, List.length_range]
      exact trace_shift base attempt _
    | httpError m =>
      simp only [recordTimeout, List.length_cons]
      rw [ih (attempt + 1), List.length_map, List.length_range]
      exact trace_shift base attempt _
    | reqError m =>
      simp only [recordTimeout, List.length_cons]
      rw [ih (attempt + 1), List.length_map, List.length_range]
      exact trace_shift base attempt _

/-- **C8.**  Within one transport call, the `n`-th attempt (1-based) is
issued with timeout `base_timeout * n`: the trace of timeouts actually
used is exactly `[base*1, base*2, ...]`, one entry per attempt performed. -/
theorem c8_linear_timeouts (apiKey : String) (respond : Nat → ReqOutcome)
    (base maxRetries : Nat) :
    (make_request apiKey respond base maxRetries).2 =
      (List.range (make_request apiKey respond base maxRetries).2.length).map
        (fun n => base * (n + 1)) := by
  unfold make_request
  split
  · simp
  · rw [make_request_loop_timeouts respond base maxRetries maxRetries 0 none]
    simp

theorem trace_base (base m : Nat) :
    (List.range m).map (fun j => base * (0 + j + 1)) =
      (List.range m).map (fun j => base * (j + 1)) := by
  apply List.map_congr_left
  intro j hj
  congr 1
  omega

theorem make_request_loop_auth (respond : Nat → ReqOutcome) (base maxRetries : Nat) :
    ∀ (k rem attempt : Nat) (lastErr : Option TransportFail), k < rem →
      (∀ j, j < k → (failOf (respond (attempt + j))).isSome = true) →
      respond (attempt + k) = .auth401 →
      make_request_loop respond base maxRetries rem attempt lastErr =
        (.error (.valueError "Invalid OpenRouter API key"),
         (List.range (k + 1)).map (fun j => base * (attempt + j + 1))) := by
  intro k
  induction k with
  | zero =>
    intro rem attempt lastErr hk hj hauth
    cases rem with
    | zero => omega
    | succ rm =>
      rw [make_request_loop, show respond attempt = ReqOutcome.auth401 from hauth]
      rfl
  | succ k ih =>
    intro rem attempt lastErr hk hj hauth
    cases rem with
    | zero => omega
    | succ rm =>
      have h0 : (failOf (respond attempt)).isSome = true := by
        have := hj 0 (Nat.succ_pos k)
        simpa using this
      have hj2 : ∀ j, j < k → (failOf (respond (attempt + 1 + j))).isSome = true := by
        intro j hjk
        have harr : attempt + (j + 1) = attempt + 1 + j := by omega
        have := hj (j + 1) (by omega)
        rw [harr] at this
        exact this
      have hauth2 : respond (attempt + 1 + k) = .auth401 := by
        have harr : attempt + (k + 1) = attempt + 1 + k := by omega
        rw [harr] at hauth
        exact hauth
      cases hres : respond attempt with
      | success resp => rw [hres] at h0; simp [failOf] at h0
      | auth401 => rw [hres] at h0; simp [failOf] at h0
      | timeout =>
        rw [make_request_loop, hres]
        show recordTimeout (base * (attempt + 1))
          (make_request_loop respond base maxRetries rm (attempt + 1) (some .timeout)) = _
        rw [ih rm (attempt + 1) (some .timeout) (by omega) hj2 hauth2]
        simp only [recordTimeout]
        rw [trace_shift]
      | httpError m =>
        rw [make_request_loop, hres]
        show recordTimeout (base * (attempt + 1))
          (make_request_loop respond base maxRetries rm (attempt + 1) (some (.http m))) = _
        rw [ih rm (attempt + 1) (some (.http m)) (by omega) hj2 hauth2]
        simp only [recordTimeout]
        rw [trace_shift]
      | reqError m =>
        rw [make_request_loop, hres]
        show recordTimeout (base * (attempt + 1))
          (make_request_loop respond base maxRetries rm (attempt + 1) (some (.req m))) = _
        rw [ih rm (attempt + 1) (some (.req m)) (by omega) hj2 hauth2]
        simp only [recordTimeout]
        rw [trace_shift]

theorem make_request_loop_exhaust (respond : Nat → ReqOutcome) (base maxRetries : Nat) :
    ∀ (rem attempt : Nat) (lastErr : Option TransportFail), 1 ≤ rem →
      (∀ j, j < rem → (failOf (respond (attempt + j))).isSome = true) →
      make_request_loop respond base maxRetries rem attempt lastErr =
        (.error (.runtimeError (exhaustMsg maxRetries (failOf (respond (attempt + (rem - 1)))))),
         (List.range rem).map (fun j => base * (attempt + j + 1))) := by
  intro rem
  induction rem with
  | zero => omega
  | succ rm ih =>
    intro attempt lastErr hr hj
    have h0 : (failOf (respond attempt)).isSome = true := by
      have := hj 0 (Nat.succ_pos rm)
      simpa using this
    cases rm with
    | zero =>
      cases hres : respond attempt with
      | success resp => rw [hres] at h0; simp [failOf] at h0
      | auth401 => rw [hres] at h0; simp [failOf] at h0
      | timeout =>
        rw [make_request_loop, hres]
        show recordTimeout (base * (attempt + 1))
          (make_request_loop respond base maxRetries 0 (attempt + 1) (some .timeout)) = _
        rw [make_request_loop]
        simp only [recordTimeout]
        rw [show respond (attempt + (1 - 1)) = ReqOutcome.timeout from hres]
        rfl
      | httpError m =>
        rw [make_request_loop, hres]
        show recordTimeout (base * (attempt + 1))
          (make_request_loop respond base maxRetries 0 (attempt + 1) (some (.http m))) = _
        rw [make_request_loop]
        simp only [recordTimeout]
        rw [show respond (attempt + (1 - 1)) = ReqOutcome.httpError m from hres]
        rfl
      | reqError m =>
        rw [make_request_loop, hres]
        show recordTimeout (base * (attempt + 1))
          (make_request_loop respond base maxRetries 0 (attempt + 1) (some (.req m))) = _
        rw [make_request_loop]
        simp only [recordTimeout]
        rw [show respond (attempt + (1 - 1)) = ReqOutcome.reqError m from hres]
        rfl
    | succ rm' =>
      have hj2 : ∀ j, j < rm' + 1 → (failOf (respond (attempt + 1 + j))).isSome = true := by
        intro j hjk
        have harr : attempt + (j + 1) = attempt + 1 + j := by omega
        have := hj (j + 1) (by omega)
        rw [harr] at this
        exact this
      have hidx : attempt + 1 + (rm' + 1 - 1) = attempt + (rm' + 1 + 1 - 1) := by omega
      cases hres : respond attempt with
      | success resp => rw [hres] at h0; simp [failOf] at h0
      | auth401 => rw [hres] at h0; simp [failOf] at h0
      | timeout =>
        rw [make_request_loop, hres]
        show recordTimeout (base * (attempt + 1))
          (make_request_loop respond base maxRetries (rm' + 1) (attempt + 1)
            (some .timeout)) = _
        rw [ih (attempt + 1) (some .timeout) (by omega) hj2]
        simp only [recordTimeout]
        rw [trace_shift, hidx]
      | httpError m =>
        rw [make_request_loop, hres]
        show recordTimeout (base * (attempt + 1))
          (make_request_loop respond base maxRetries (rm' + 1) (attempt + 1)
            (some (.http m))) = _
        rw [ih (attempt + 1) (some (.http m)) (by omega) hj2]
        simp only [recordTimeout]
        rw [trace_shift, hidx]
      | reqError m =>
        rw [make_request_loop, hres]
        show recordTimeout (base * (attempt + 1))
          (make_request_loop respond base maxRetries (rm' + 1) (attempt + 1)
            (some (.req m))) = _
        rw [ih (attempt + 1) (some (.req m)) (by omega) hj2]
        simp only [recordTimeout]
        rw [trace_shift, hidx]

/-- **C6.**  With a configured API key, an HTTP 401 raises the fatal
bad-credentials `ValueError` immediately on the attempt that received it —
the timeout trace has exactly `k + 1` entries, so no further retries
happen even when attempts remain — whereas when every attempt fails with a
timeout, HTTP error or generic request error, all `max_retries` attempts
are performed and the `RuntimeError` raised is determined by the last
underlying failure. -/
theorem c6_auth_fatal_others_retry (apiKey : String) (respond : Nat → ReqOutcome)
    (base maxRetries : Nat) (hkey : apiKey ≠ "") :
    (∀ k, k < maxRetries →
      (∀ j, j < k → (failOf (respond j)).isSome = true) →
      respond k = .auth401 →
      make_request apiKey respond base maxRetries =
        (.error (.valueError "Invalid OpenRouter API key"),
         (List.range (k + 1)).map (fun n => base * (n + 1)))) ∧
    (1 ≤ maxRetries →
      (∀ j, j < maxRetries → (failOf (respond j)).isSome = true) →
      make_request apiKey respond base maxRetries =
        (.error (.runtimeError (exhaustMsg maxRetries (failOf (respond (maxRetries - 1))))),
         (List.range maxRetries).map (fun n => base * (n + 1)))) := by
  constructor
  · intro k hk hj hauth
    unfold make_request
    rw [if_neg hkey]
    rw [make_request_loop_auth respond base maxRetries k maxRetries 0 none hk
      (fun j hjk => by simpa using hj j hjk) (by simpa using hauth)]
    rw [trace_base]
  · intro hr hj
    unfold make_request
    rw [if_neg hkey]
    rw [make_request_loop_exhaust respond base maxRetries maxRetries 0 none hr
      (fun j hjk => by simpa using hj j hjk)]
    rw [trace_base]
    simp

/-- Witness for C6: a 401 on the second attempt stops after two attempts
out of three; three HTTP errors exhaust the budget with the message built
from the last failure. -/
theorem c6_auth_fatal_others_retry_witness :
    make_request "key" (fun k => if k = 0 then .timeout else .auth401) 60 3 =
      (.error (.valueError "Invalid OpenRouter API key"), [60, 120]) ∧
    make_request "key" (fun _ => .httpError "boom") 60 3 =
      (.error (.runtimeError "HTTP error persisted after 3 attempts: boom"),
       [60, 120, 180]) := by
  constructor
  · exact (c6_auth_fatal_others_retry "key" (fun k => if k = 0 then .timeout else .auth401)
      60 3 (by decide)).1 1 (by omega) (by decide) rfl
  · exact (c6_auth_fatal_others_retry "key" (fun _ => .httpError "boom")
      60 3 (by decide)).2 (by omega) (by decide)

/-! ## Dependency aggregation and persistence

`DependencyCollector.analyze_directory` aggregates per-file framework sets
into a `Counter` (frequency map); `_normalize_dependency_data` turns the
counter into name/count records sorted by name
(`src/processors/dependency_collector.py` lines 131-193);
`FileHandler.update_dependencies` merges a list of framework names into the
dependencies file, incrementing the count of an existing name and appending
a new name with count 1 (`src/utils/file_handler.py` lines 116-170, whose
contract is fixed by `tests/utils/test_file_handler.py`).

A frequency map is an association list `List (String × Nat)` in insertion
order, which is both the iteration order of a Python `Counter` and the JSON
array order of the dependencies file. -/

/-- One increment of a frequency map: the shared increment-or-append step
of `Counter.update` and of the frameworks loop of
`FileHandler.update_dependencies` (increment the first entry with this
name, else append the name with count 1). -/
def bump_framework : List (String × Nat) → String → List (String × Nat)
  | [], name => [(name, 1)]
  | (k, c) :: rest, name =>
    if k = name then (k, c + 1) :: rest else (k, c) :: bump_framework rest name

/-- `Counter.update(names)`: add one count per listed name. -/
def counter_update (counter : List (String × Nat)) (names : List String) :
    List (String × Nat) :=
  names.foldl bump_framework counter

/-- Count lookup in a frequency map (0 when absent). -/
def lookupCount : List (String × Nat) → String → Nat
  | [], _ => 0
  | (k, c) :: rest, name => if k = name then c else lookupCount rest name

/-- Python `str.lower()` on one character, for the ASCII framework names
handled here. -/
def pyLowerChar (c : Char) : Char :=
  if 'A' ≤ c ∧ c ≤ 'Z' then Char.ofNat (c.toNat + 32) else c

/-- Python `str.lower()` (ASCII model). -/
def pyLower (s : String) : String := String.mk (s.data.map pyLowerChar)

/-- First-occurrence deduplication (a Python `set` of the listed names,
represented as a list). -/
def dedupAux (seen : List String) : List String → List String
  | [] => []
  | n :: rest =>
    if seen.contains n then dedupAux seen rest else n :: dedupAux (n :: seen) rest

/-- Modelled from the spec: the per-file LLM dependency extraction of the
collector variant that the CLI and `tests/processors/test_dependency_collector.py`
exercise, which is not under `src/` (the `src/` collector is a stale
regex-based variant with an incompatible signature).  Spec section 4.5:
`extract(file_content, prompt_template) -> set of lowercase framework
names` with "a post-processing step that lowercases every returned name
before counting".  Input: the validated framework names returned by the
model for one file; output: the set of their lowercase forms. -/
def analyze_file_frameworks (validatedNames : List String) : List String :=
  dedupAux [] (validatedNames.map pyLower)

/-- The aggregation of `DependencyCollector.analyze_directory`
(`src/processors/dependency_collector.py` lines 131-157): fold each file's
framework set into the counter with `Counter.update`. -/
def analyze_directory (fileResults : List (List String)) : List (String × Nat) :=
  fileResults.foldl (fun counter names => counter_update counter (analyze_file_frameworks names)) []

theorem lookupCount_bump (m : List (String × Nat)) (n k : String) :
    lookupCount (bump_framework m n) k = lookupCount m k + (if n = k then 1 else 0) := by
  induction m with
  | nil =>
    by_cases h : n = k
    · subst h
      simp [bump_framework, lookupCount]
    · simp [bump_framework, lookupCount, h]
  | cons e rest ih =>
    obtain ⟨k0, c⟩ := e
    by_cases h0 : k0 = n
    · subst h0
      rw [bump_framework, if_pos rfl]
      by_cases hk : k0 = k
      · subst hk
        simp [lookupCount]
      · simp [lookupCount, hk]
    · rw [bump_framework, if_neg h0]
      by_cases hk : k0 = k
      · subst hk
        have hnk : ¬(n = k0) := fun hh => h0 hh.symm
        simp [lookupCount, hnk]
      · simp [lookupCount, hk, ih]

theorem lookupCount_counter_update (names : List String) :
    ∀ (counter : List (String × Nat)) (k : String),
      lookupCount (counter_update counter names) k =
        lookupCount counter k + names.count k := by
  induction names with
  | nil =>
    intro counter k
    simp [counter_update]
  | cons n rest ih =>
    intro counter k
    show lookupCount (counter_update (bump_framework counter n) rest) k = _
    rw [ih (bump_framework counter n) k, lookupCount_bump, List.count_cons]
    by_cases h : n = k <;> simp [h] <;> omega

theorem count_dedupAux (k : String) :
    ∀ (l seen : List String),
      (dedupAux seen l).count k = if k ∈ l ∧ ¬(k ∈ seen) then 1 else 0 := by
  intro l
  induction l with
  | nil =>
    intro seen
    simp [dedupAux]
  | cons n rest ih =>
    intro seen
    rw [dedupAux]
    by_cases hseen : seen.contains n
    · rw [if_pos hseen, ih seen]
      have hn : n ∈ seen := contains_true_iff.mp hseen
      by_cases hk : k = n
      · subst hk
        simp [hn]
      · simp [List.mem_cons, hk]
    · rw [if_neg hseen, List.count_cons, ih (n :: seen)]
      have hn : ¬(n ∈ seen) := fun hh => hseen (contains_true_iff.mpr hh)
      by_cases hk : k = n
      · subst hk
        simp [hn, List.mem_cons]
      · have : (n == k) = false := by
          simp
          exact fun hh => hk hh.symm
        simp [this, List.mem_cons, hk]

theorem count_analyze_file (f : List String) (k : String) :
    (analyze_file_frameworks f).count k =
      if ∃ n ∈ f, pyLower n = k then 1 else 0 := by
  rw [analyze_file_frameworks, count_dedupAux]
  simp [List.mem_map]

theorem lookupCount_analyze_directory_aux (fileResults : List (List String)) :
    ∀ (counter : List (String × Nat)) (k : String),
      lookupCount
        (fileResults.foldl
          (fun counter names => counter_update counter (analyze_file_frameworks names))
          counter) k =
        lookupCount counter k +
          (fileResults.map (fun f => if ∃ n ∈ f, pyLower n = k then 1 else 0)).sum := by
  induction fileResults with
  | nil =>
    intro counter k
    simp
  | cons f rest ih =>
    intro counter k
    rw [List.foldl_cons, ih, lookupCount_counter_update, count_analyze_file]
    rw [List.map_cons, List.sum_cons]
    omega

/-- **C1 (spec-modelled per-file extraction).**  The aggregation stage
lowercases every returned framework name before counting: across any
collection of per-file validated name lists, the frequency-map count of a
key equals the number of files containing some name whose lowercase form
is that key, so names differing only in case land in the same key; in
particular aggregating `["Flask"]`, `["flask"]`, `["FLASK"]` across three
files yields exactly the single entry `("flask", 3)`. -/
theorem c1_lowercase_aggregation :
    (∀ (fileResults : List (List String)) (k : String),
      lookupCount (analyze_directory fileResults) k =
        (fileResults.map (fun f => if ∃ n ∈ f, pyLower n = k then 1 else 0)).sum) ∧
    analyze_directory [["Flask"], ["flask"], ["FLASK"]] = [("flask", 3)] := by
  constructor
  · intro fileResults k
    rw [analyze_directory, lookupCount_analyze_directory_aux]
    simp [lookupCount]
  · rfl

/-- The frameworks loop of `FileHandler.update_dependencies`
(`src/utils/file_handler.py` lines 137-149): merge each new framework name
into the current file content, incrementing an existing entry or appending
a new one with count 1.  No sorting happens here. -/
def update_dependencies_frameworks (current : List (String × Nat))
    (newFrameworks : List String) : List (String × Nat) :=
  newFrameworks.foldl bump_framework current

/-- Lexicographic comparison of character lists by code point: Python's
`<=` on strings, which is the order `list.sort(key=lambda x: x["name"])`
sorts by. -/
def charsLe : List Char → List Char → Bool
  | [], _ => true
  | _ :: _, [] => false
  | c1 :: r1, c2 :: r2 =>
    if c1.toNat < c2.toNat then true
    else if c2.toNat < c1.toNat then false
    else charsLe r1 r2

/-- Python's string order on names. -/
def nameLe (a b : String) : Bool := charsLe a.data b.data

theorem charsLe_trans :
    ∀ l1 l2 l3 : List Char, charsLe l1 l2 = true → charsLe l2 l3 = true →
      charsLe l1 l3 = true := by
  intro l1
  induction l1 with
  | nil => intro l2 l3 h12 h23; rfl
  | cons a r1 ih =>
    intro l2 l3 h12 h23
    cases l2 with
    | nil => simp [charsLe] at h12
    | cons b r2 =>
      cases l3 with
      | nil => simp [charsLe] at h23
      | cons c r3 =>
        rw [charsLe] at h12 h23 ⊢
        by_cases hab : a.toNat < b.toNat
        · rw [if_pos hab] at h12
          by_cases hbc : b.toNat < c.toNat
          · rw [if_pos (show a.toNat < c.toNat by omega)]
          · rw [if_neg hbc] at h23
            by_cases hcb : c.toNat < b.toNat
            · rw [if_pos hcb] at h23
              exact absurd h23 (by simp)
            · rw [if_pos (by omega)]
        · rw [if_neg hab] at h12
          by_cases hba : b.toNat < a.toNat
          · rw [if_pos hba] at h12
            exact absurd h12 (by simp)
          · rw [if_neg hba] at h12
            by_cases hbc : b.toNat < c.toNat
            · rw [if_pos hbc] at h23
              rw [if_pos (by omega)]
            · rw [if_neg hbc] at h23
              by_cases hcb : c.toNat < b.toNat
              · rw [if_pos hcb] at h23
                exact absurd h23 (by simp)
              · rw [if_neg hcb] at h23
                rw [if_neg (by omega), if_neg (by omega)]
                exact ih r2 r3 h12 h23

theorem charsLe_total :
    ∀ l1 l2 : List Char, (charsLe l1 l2 || charsLe l2 l1) = true := by
  intro l1
  induction l1 with
  | nil => intro l2; simp [charsLe]
  | cons a r1 ih =>
    intro l2
    cases l2 with
    | nil => simp [charsLe]
    | cons b r2 =>
      rw [charsLe, charsLe]
      by_cases hab : a.toNat < b.toNat
      · rw [if_pos hab]
        simp
      · by_cases hba : b.toNat < a.toNat
        · rw [if_neg hab, if_pos hba, if_pos hba]
          simp
        · rw [if_neg hab, if_neg hba, if_neg hba, if_neg hab]
          exact ih r2

/-- The frameworks portion of
`DependencyCollector._normalize_dependency_data`
(`src/processors/dependency_collector.py` lines 159-193): counter entries
become name/count records in counter order, then `list.sort(key=name)` —
modelled by the stable `mergeSort` on Python's string order. -/
def normalize_frameworks (counter : List (String × Nat)) : List (String × Nat) :=
  counter.mergeSort (fun a b => nameLe a.1 b.1)

/-- The frameworks list is sorted (non-decreasing) by name. -/
def sortedByName : List (String × Nat) → Bool
  | [] => true
  | [_] => true
  | a :: b :: rest => nameLe a.1 b.1 && sortedByName (b :: rest)

theorem sortedByName_of_pairwise :
    ∀ l : List (String × Nat), l.Pairwise (fun a b => nameLe a.1 b.1 = true) →
      sortedByName l = true := by
  intro l
  induction l with
  | nil => intro h; rfl
  | cons a rest ih =>
    intro h
    rw [List.pairwise_cons] at h
    cases rest with
    | nil => rfl
    | cons b rest2 =>
      rw [sortedByName]
      have hab : nameLe a.1 b.1 = true := h.1 b (List.mem_cons_self _ _)
      rw [ih h.2, hab]
      rfl

theorem keys_bump (m : List (String × Nat)) (n : String) :
    (bump_framework m n).map (fun e => e.1) = m.map (fun e => e.1) ∨
    (bump_framework m n).map (fun e => e.1) = m.map (fun e => e.1) ++ [n] := by
  induction m with
  | nil => right; rfl
  | cons e rest ih =>
    obtain ⟨k0, c⟩ := e
    by_cases h : k0 = n
    · left
      rw [bump_framework, if_pos h]
      rfl
    · rw [bump_framework, if_neg h]
      rcases ih with ih | ih
      · left
        simp [ih]
      · right
        simp [ih]

theorem keys_update_dependencies (newFrameworks : List String) :
    ∀ current : List (String × Nat), ∃ t,
      (update_dependencies_frameworks current newFrameworks).map (fun e => e.1) =
        current.map (fun e => e.1) ++ t := by
  induction newFrameworks with
  | nil =>
    intro current
    exact ⟨[], by simp [update_dependencies_frameworks]⟩
  | cons n rest ih =>
    intro current
    obtain ⟨t, ht⟩ := ih (bump_framework current n)
    rcases keys_bump current n with hk | hk
    · refine ⟨t, ?_⟩
      show (update_dependencies_frameworks (bump_framework current n) rest).map _ = _
      rw [ht, hk]
    · refine ⟨[n] ++ t, ?_⟩
      show (update_dependencies_frameworks (bump_framework current n) rest).map _ = _
      rw [ht, hk]
      simp

/-- **C9 (counterexample).**  Merging new results into an already-existing
dependencies file does not re-sort: merging the single new framework
`"apache"` into an existing file holding `zlib` appends it at the end,
and the persisted frameworks list is not sorted by name. -/
theorem c9_merge_unsorted_counterexample :
    update_dependencies_frameworks [("zlib", 1)] ["apache"] =
      [("zlib", 1), ("apache", 1)] ∧
    sortedByName [("zlib", 1), ("apache", 1)] = false := by
  exact ⟨rfl, rfl⟩

/-- **C9 (amended).**  Within one collection run the collector sorts the
frameworks alphabetically by name before handing them to the writer (so a
fresh dependencies file is sorted), but `FileHandler.update_dependencies`
merges into an existing file by in-place increment and end-append without
re-sorting: the existing file's name order is always a prefix of the
written order, so sort-before-write does not hold for merged artifacts. -/
theorem c9_sort_only_on_normalize :
    (∀ counter : List (String × Nat), sortedByName (normalize_frameworks counter) = true) ∧
    (∀ (current : List (String × Nat)) (newFrameworks : List String), ∃ t,
      (update_dependencies_frameworks current newFrameworks).map (fun e => e.1) =
        current.map (fun e => e.1) ++ t) := by
  constructor
  · intro counter
    apply sortedByName_of_pairwise
    exact @List.sorted_mergeSort (String × Nat) (fun a b => nameLe a.1 b.1)
      (fun a b c hab hbc => charsLe_trans _ _ _ hab hbc)
      (fun a b => charsLe_total _ _)
      counter
  · intro current newFrameworks
    exact keys_update_dependencies newFrameworks current

end LLMAnalysis
